import Mathlib

/-!
Shallow embedding of the content-addressed reconciliation engine of
`tools/owl-connect-import.py` (repository `attendee-cards`): row
normalization and hashing (`compute_record_hash`), table-name resolution
(`ensure_table_exists`), the change-data-capture diff (`perform_cdc`) and
the importer pipeline (`import_excel_to_mysql`), together with theorems
settling the frozen claims about that code.

Modelling conventions:
- A row (`pd.Series`) is an association list of column name to scalar
  value.  Rows are mappings, so theorems that depend on per-key dict
  semantics carry a `Nodup` hypothesis on the key list.
- Python strings are Lean `String`s (lists of characters); `str.strip`,
  `str.lower` and single-character `str.replace` are re-implemented on the
  character list so that the kernel can evaluate them.
- A Python float is embedded by its two observable projections used by the
  code: its decimal text `str(v)` and its integer truncation `int(v)`.
  IEEE arithmetic itself is never performed by the code under study.
- The MD5 digest is modelled as the identity on the serialized row string:
  the spec (§3) documents digest equality iff normalized-row equality, so
  hash collisions are outside the model.
- The SQLAlchemy session and snapshot store are explicit state
  (`RunState`); `session.add` accumulates a pending list, `session.commit`
  appends it to the durable change log, `session.rollback` discards it.
  Fallible external steps (reading the prior snapshot, hashing, diffing,
  committing the change log) can be made to fail through an injected
  fault oracle `fail : Step → Bool`, which models a raised exception at
  that point of the run.
-/

/-- A scalar cell value as the Python code distinguishes them:
missing (`None` / `NaN`), `int`, `float` (embedded by its decimal text
`str(v)` and integer truncation `int(v)`), `str`, or any other type
(embedded by its `str()` rendering, the only projection the code uses). -/
inductive Value where
  | vNull : Value
  | vInt (i : Int) : Value
  | vFloat (s : String) (ip : Int) : Value
  | vStr (s : String) : Value
  | vOther (s : String) : Value
deriving DecidableEq, Repr

/-- A row: an association list from column name to scalar value
(`pd.Series`; the index is a mapping, hence keys are `Nodup` whenever a
claim depends on it). -/
abbrev Row : Type := List (String × Value)

/-- `Except` equality is decidable componentwise (needed to evaluate run
outcomes on concrete inputs). -/
instance {ε α : Type} [DecidableEq ε] [DecidableEq α] : DecidableEq (Except ε α) := fun a b =>
  match a, b with
  | Except.error e, Except.error f =>
    if h : e = f then Decidable.isTrue (by rw [h]) else
      Decidable.isFalse (by intro hc; cases hc; exact h rfl)
  | Except.error _, Except.ok _ => Decidable.isFalse (by intro hc; cases hc)
  | Except.ok _, Except.error _ => Decidable.isFalse (by intro hc; cases hc)
  | Except.ok x, Except.ok y =>
    if h : x = y then Decidable.isTrue (by rw [h]) else
      Decidable.isFalse (by intro hc; cases hc; exact h rfl)

/-- Python `str.lower()` (ASCII case folding, the range exercised by the
data and by every claim). -/
def py_lower (s : String) : String := String.mk (s.data.map Char.toLower)

/-- Python `str.strip()`: drop leading and trailing whitespace. -/
def py_strip (s : String) : String :=
  String.mk (((s.data.dropWhile Char.isWhitespace).reverse.dropWhile Char.isWhitespace).reverse)

/-- Python `s.replace('-', '_')`. -/
def py_replace_dash (s : String) : String :=
  String.mk (s.data.map (fun c => if c = '-' then '_' else c))

/-- Python string slice `s[:n]` (by characters). -/
def py_take (s : String) (n : Nat) : String := String.mk (s.data.take n)

/-- Python string length `len(s)` (in characters). -/
def py_len (s : String) : Nat := s.data.length

/-- Lexicographic code-point comparison of character lists: Python's `<`
on strings. -/
def strLtB : List Char → List Char → Bool
  | [], [] => false
  | [], _ :: _ => true
  | _ :: _, [] => false
  | a :: as, b :: bs => if a < b then true else if b < a then false else strLtB as bs

/-- Python tuple comparison `(k1, v1) <= (k2, v2)` for string pairs, the
order used by `sorted(filtered_row.items())`. -/
def pairLe (a b : String × String) : Bool :=
  strLtB a.1.data b.1.data || (a.1 == b.1 && (strLtB a.2.data b.2.data || a.2 == b.2))

/-- The order relation fed to the sort of `sorted(filtered_row.items())`. -/
def pairLeR (a b : String × String) : Prop := pairLe a b = true

instance : DecidableRel pairLeR := fun a b => inferInstanceAs (Decidable (pairLe a b = true))

/-- The default `exclude_columns` of `compute_record_hash`
(owl-connect-import.py lines 183-187). -/
def default_exclude_columns : List String :=
  ["created_at", "updated_at", "timestamp", "record_hash", "registrant_date"]

/-- Per-field normalization of `compute_record_hash`
(owl-connect-import.py lines 193-205): empties to `"null"`; an `int` or
`float` to `str(int(v))[:10]` when `len(str(v)) > 10`, else `str(v)`
unchanged; strings (and any other type via `str()`) stripped then
lower-cased.  For an `int`, `str(int(v)) = str(v)`, so both branches
read the same decimal text. -/
def normalize_value : Value → String
  | Value.vNull => "null"
  | Value.vInt i => if 10 < py_len (toString i) then py_take (toString i) 10 else toString i
  | Value.vFloat s ip => if 10 < py_len s then py_take (toString ip) 10 else s
  | Value.vStr s => py_lower (py_strip s)
  | Value.vOther s => py_lower (py_strip s)

/-- `compute_record_hash` (owl-connect-import.py lines 171-223): drop the
excluded columns, normalize each remaining field, sort the entries as
Python's `sorted` does on `(key, value)` string pairs, join them as
`"k1:v1|k2:v2|..."`.  The final `hashlib.md5(...).hexdigest()` is
modelled as the identity on that serialized string (see the header). -/
def compute_record_hash (row : Row) (exclude_columns : List String) : String :=
  let filtered_row : List (String × String) :=
    (row.filter (fun p => !(exclude_columns.contains p.1))).map
      (fun p => (p.1, normalize_value p.2))
  let sorted_items := List.insertionSort pairLeR filtered_row
  String.intercalate "|" (sorted_items.map (fun p => p.1 ++ ":" ++ p.2))

/-- The digest of a row under the default exclusion list, as both
`perform_cdc` call sites compute it (`df.apply(compute_record_hash, axis=1)`). -/
def row_hash (r : Row) : String := compute_record_hash r default_exclude_columns

/-- The table-name match of `ensure_table_exists`
(owl-connect-import.py lines 243-247): `t.lower() == q.lower()` or
`t.lower().replace('-','_') == q.lower().replace('-','_')`. -/
def table_name_matches (t q : String) : Bool :=
  (py_lower t == py_lower q) ||
    (py_replace_dash (py_lower t) == py_replace_dash (py_lower q))

/-- The canonical form the spec's matching rule compares by: lower-case,
hyphens replaced by underscores. -/
def canonical_table_name (s : String) : String := py_replace_dash (py_lower s)

/-- One audit record of the `owl_connect_change_log` table (ORM model
`CDCChangeLog`, owl-connect-import.py lines 141-169).  `old_data` /
`new_data` hold the serialized row; the `str(Series)` rendering is
modelled by the row content itself, since the engine only ever sets or
omits these fields. -/
structure ChangeRecord where
  change_type : String
  table_name : String
  record_id : String
  old_data : Option Row
  new_data : Option Row
deriving DecidableEq, Repr

/-- The change summary dictionary `perform_cdc` returns
(owl-connect-import.py lines 354-360; the code also tracks a never
incremented `updates` counter). -/
structure Summary where
  inserts : Nat
  updates : Nat
  deletes : Nat
  unchanged : Nat
  total_processed : Nat
deriving DecidableEq, Repr

/-- The durable state a reconciliation run touches: the snapshot store
(table name to persisted rows, the engine's view of the MySQL database)
and the committed change log. -/
structure RunState where
  store : List (String × List Row)
  changeLog : List ChangeRecord
deriving DecidableEq, Repr

/-- The fallible external steps of a run, for fault injection: reading
the prior snapshot (`pd.read_sql_table`), hashing the rows
(`df.apply(compute_record_hash)`), building the diff, committing the
change log (`session.commit`). -/
inductive Step where
  | readSnapshot : Step
  | hashRows : Step
  | diffRows : Step
  | commitLog : Step
deriving DecidableEq, Repr

/-- An error escaping `perform_cdc`: the `IndexError` raised by
`matching_tables[0]` on an empty match list (owl-connect-import.py line
250), or an injected failure of an external step. -/
inductive CDCError where
  | indexOutOfRange : CDCError
  | stepFailure (s : Step) : CDCError
deriving DecidableEq, Repr

/-- The fault oracle of a run in which no external step fails. -/
def no_fail : Step → Bool := fun _ => false

/-- `df['record_hash'] = ...` on one row: overwrite the column if the row
already carries it, otherwise append it (pandas column assignment). -/
def set_column (r : Row) (c : String) (v : Value) : Row :=
  if r.any (fun p => p.1 == c) then
    r.map (fun p => if p.1 == c then (p.1, v) else p)
  else r ++ [(c, v)]

/-- `row.drop(c)`: remove the column `c` from a row. -/
def drop_column (r : Row) (c : String) : Row := r.filter (fun p => !(p.1 == c))

/-- Read a table's rows from the snapshot store (`pd.read_sql_table`). -/
def lookup_table : List (String × List Row) → String → Option (List Row)
  | [], _ => none
  | (n, rows) :: rest, q => if n == q then some rows else lookup_table rest q

/-- `df.to_sql(name, engine, if_exists='replace')`: replace the table's
contents wholesale, creating it when absent. -/
def replace_table : List (String × List Row) → String → List Row → List (String × List Row)
  | [], q, rows => [(q, rows)]
  | (n, old) :: rest, q, rows =>
    if n == q then (q, rows) :: rest else (n, old) :: replace_table rest q rows

/-- `ensure_table_exists` (owl-connect-import.py lines 225-302), reduced
to its reachable behavior.  The code filters the backend's table listing
by `table_name_matches` and then evaluates `matching_tables[0]` (line
250) *before* the `if not matching_tables:` guard (line 254), so an empty
match list raises `IndexError` and the first-time-import block at lines
253-292 is unreachable; on a non-empty match list that block is skipped
and the dictionary returned carries the first matching stored name with
all counters zero.  Only that name (and the zero `inserts` counter, which
makes `perform_cdc` continue) is consumed by the caller, so the embedding
returns the name. -/
def ensure_table_exists (tables : List String) (table_name : String) : Except CDCError String :=
  let matching_tables := tables.filter (fun t => table_name_matches t table_name)
  match matching_tables with
  | [] => Except.error CDCError.indexOutOfRange
  | exact_table_name :: _ => Except.ok exact_table_name

/-- Everything one run of `perform_cdc` produces: the returned summary or
the propagated error, the durable state after the run (rollback already
applied on the error path), and the caller's dataframe after the run
(mutated in place by the `df['record_hash']` assignment at line 350). -/
structure CDCOutcome where
  res : Except CDCError Summary
  state : RunState
  df : List Row
deriving DecidableEq, Repr

/-- `perform_cdc` (owl-connect-import.py lines 304-406).  An empty
dataframe returns the all-zero summary before any table access (lines
326-335).  Otherwise the table name is resolved (`ensure_table_exists`);
the prior snapshot is read; both dataframes get a `record_hash` column
(the filters at lines 363/376/389 compare those columns, which per
construction hold `compute_record_hash` of each row); rows of `df` whose
digest is absent from the existing digests become INSERT records, rows of
the existing table whose digest is absent from the incoming digests
become DELETE records, the remaining incoming rows are counted unchanged;
`session.commit` then appends the pending records to the change log.
Any error reaches the `except` handler (lines 401-404): `session.rollback`
discards the pending records, the durable state is left as it was, and
the error is re-raised. -/
def perform_cdc (fail : Step → Bool) (df : List Row) (table_name : String)
    (st : RunState) : CDCOutcome :=
  -- Outcome fields in order: returned/raised result, durable state, caller's dataframe.
  if df.isEmpty then
    ⟨Except.ok ⟨0, 0, 0, 0, 0⟩, st, df⟩
  else
    match ensure_table_exists (st.store.map Prod.fst) table_name with
    | Except.error e => ⟨Except.error e, st, df⟩
    | Except.ok exact_table_name =>
      if fail Step.readSnapshot then
        ⟨Except.error (CDCError.stepFailure Step.readSnapshot), st, df⟩
      else
        match lookup_table st.store exact_table_name with
        | none => ⟨Except.error (CDCError.stepFailure Step.readSnapshot), st, df⟩
        | some existing_rows =>
          if fail Step.hashRows then
            ⟨Except.error (CDCError.stepFailure Step.hashRows), st, df⟩
          else
            let dfh := df.map (fun r => set_column r "record_hash" (Value.vStr (row_hash r)))
            let existing_hashes := existing_rows.map row_hash
            let new_hashes := df.map row_hash
            if fail Step.diffRows then
              ⟨Except.error (CDCError.stepFailure Step.diffRows), st, dfh⟩
            else
              let new_records := df.filter (fun r => !(existing_hashes.contains (row_hash r)))
              let deleted_records :=
                existing_rows.filter (fun r => !(new_hashes.contains (row_hash r)))
              -- Record fields in order: change_type, table_name, record_id, old_data, new_data.
              let pending : List ChangeRecord :=
                new_records.map (fun r =>
                  ⟨"INSERT", exact_table_name, row_hash r, none,
                    some (drop_column
                      (set_column r "record_hash" (Value.vStr (row_hash r))) "record_hash")⟩) ++
                deleted_records.map (fun r =>
                  ⟨"DELETE", exact_table_name, row_hash r,
                    some (drop_column
                      (set_column r "record_hash" (Value.vStr (row_hash r))) "record_hash"),
                    none⟩)
              -- Summary fields in order: inserts, updates, deletes, unchanged, total_processed.
              let summary : Summary :=
                ⟨new_records.length, 0, deleted_records.length,
                  (df.filter (fun r => existing_hashes.contains (row_hash r))).length,
                  df.length⟩
              if fail Step.commitLog then
                ⟨Except.error (CDCError.stepFailure Step.commitLog), st, dfh⟩
              else
                ⟨Except.ok summary, ⟨st.store, st.changeLog ++ pending⟩, dfh⟩

/-- `import_excel_to_mysql` (owl-connect-import.py lines 408-453), after
the external spreadsheet read and column sanitization: run `perform_cdc`
on the dataframe, then persist the (mutated) dataframe wholesale as table
`owl_connect_export` (line 447).  An error from `perform_cdc` is caught,
logged and re-raised (lines 451-453), so the snapshot replace never runs
on the error path. -/
def import_excel_to_mysql (fail : Step → Bool) (df : List Row) (st : RunState) :
    Except CDCError (List Row) × RunState :=
  let out := perform_cdc fail df "owl_connect_export" st
  match out.res with
  | Except.error e => (Except.error e, out.state)
  | Except.ok _ =>
    (Except.ok out.df,
      ⟨replace_table out.state.store "owl_connect_export" out.df, out.state.changeLog⟩)

/-! ## Order facts about the pair comparison used by the sort -/

theorem strLtB_asymm : ∀ {x y : List Char}, strLtB x y = true → strLtB y x = false
  | [], [], h => by simp [strLtB] at h
  | [], _ :: _, _ => by simp [strLtB]
  | _ :: _, [], h => by simp [strLtB] at h
  | a :: as, b :: bs, h => by
    by_cases hab : a < b
    · simp [strLtB, hab, lt_asymm hab]
    · by_cases hba : b < a
      · simp [strLtB, hab, hba] at h
      · have hrec : strLtB as bs = true := by simpa [strLtB, hab, hba] using h
        simp [strLtB, hab, hba, strLtB_asymm hrec]

theorem strLtB_eq_of_not : ∀ {x y : List Char}, strLtB x y = false → strLtB y x = false → x = y
  | [], [], _, _ => rfl
  | [], _ :: _, h, _ => by simp [strLtB] at h
  | _ :: _, [], _, h => by simp [strLtB] at h
  | a :: as, b :: bs, h1, h2 => by
    by_cases hab : a < b
    · simp [strLtB, hab] at h1
    · by_cases hba : b < a
      · simp [strLtB, hba] at h2
      · have hab' : a = b := le_antisymm (not_lt.mp hba) (not_lt.mp hab)
        have r1 : strLtB as bs = false := by simpa [strLtB, hab, hba] using h1
        have r2 : strLtB bs as = false := by simpa [strLtB, hab, hba] using h2
        rw [hab', strLtB_eq_of_not r1 r2]

theorem strLtB_trans : ∀ {x y z : List Char},
    strLtB x y = true → strLtB y z = true → strLtB x z = true
  | [], [], _, h1, _ => by simp [strLtB] at h1
  | _ :: _, [], _, h1, _ => by simp [strLtB] at h1
  | [], _ :: _, [], _, h2 => by simp [strLtB] at h2
  | [], _ :: _, _ :: _, _, _ => by simp [strLtB]
  | _ :: _, _ :: _, [], _, h2 => by simp [strLtB] at h2
  | a :: as, b :: bs, c :: cs, h1, h2 => by
    by_cases hab : a < b
    · by_cases hbc : b < c
      · simp [strLtB, lt_trans hab hbc]
      · by_cases hcb : c < b
        · simp [strLtB, hbc, hcb] at h2
        · have : b = c := le_antisymm (not_lt.mp hcb) (not_lt.mp hbc)
          simp [strLtB, this ▸ hab]
    · by_cases hba : b < a
      · simp [strLtB, hab, hba] at h1
      · have hab' : a = b := le_antisymm (not_lt.mp hba) (not_lt.mp hab)
        have r1 : strLtB as bs = true := by simpa [strLtB, hab, hba] using h1
        by_cases hbc : b < c
        · simp [strLtB, hab' ▸ hbc]
        · by_cases hcb : c < b
          · simp [strLtB, hbc, hcb] at h2
          · have hbc' : b = c := le_antisymm (not_lt.mp hcb) (not_lt.mp hbc)
            have r2 : strLtB bs cs = true := by simpa [strLtB, hbc, hcb] using h2
            have := strLtB_trans r1 r2
            simp [strLtB, hab'.trans hbc', this]

theorem strLtB_irrefl : ∀ (x : List Char), strLtB x x = false
  | [] => rfl
  | a :: as => by simp [strLtB, strLtB_irrefl as]

theorem string_eq_of_data_eq {s t : String} (h : s.data = t.data) : s = t := by
  cases s
  cases t
  exact congrArg String.mk (by simpa using h)

theorem pairLeR_iff {a b : String × String} :
    pairLeR a b ↔
      strLtB a.1.data b.1.data = true ∨
        (a.1 = b.1 ∧ (strLtB a.2.data b.2.data = true ∨ a.2 = b.2)) := by
  simp [pairLeR, pairLe, Bool.or_eq_true, Bool.and_eq_true, beq_iff_eq]

instance : IsTotal (String × String) pairLeR := by
  constructor
  intro a b
  rcases h1 : strLtB a.1.data b.1.data with _ | _
  · rcases h2 : strLtB b.1.data a.1.data with _ | _
    · have hk : a.1 = b.1 := string_eq_of_data_eq (strLtB_eq_of_not h1 h2)
      rcases h3 : strLtB a.2.data b.2.data with _ | _
      · rcases h4 : strLtB b.2.data a.2.data with _ | _
        · have hv : a.2 = b.2 := string_eq_of_data_eq (strLtB_eq_of_not h3 h4)
          exact Or.inl (pairLeR_iff.mpr (Or.inr ⟨hk, Or.inr hv⟩))
        · exact Or.inr (pairLeR_iff.mpr (Or.inr ⟨hk.symm, Or.inl h4⟩))
      · exact Or.inl (pairLeR_iff.mpr (Or.inr ⟨hk, Or.inl h3⟩))
    · exact Or.inr (pairLeR_iff.mpr (Or.inl h2))
  · exact Or.inl (pairLeR_iff.mpr (Or.inl h1))

instance : IsTrans (String × String) pairLeR := by
  constructor
  intro a b c hab hbc
  rcases pairLeR_iff.mp hab with h1 | ⟨hk1, h1⟩
  · rcases pairLeR_iff.mp hbc with h2 | ⟨hk2, _⟩
    · exact pairLeR_iff.mpr (Or.inl (strLtB_trans h1 h2))
    · exact pairLeR_iff.mpr (Or.inl (hk2 ▸ h1))
  · rcases pairLeR_iff.mp hbc with h2 | ⟨hk2, h2⟩
    · exact pairLeR_iff.mpr (Or.inl (hk1 ▸ h2))
    · refine pairLeR_iff.mpr (Or.inr ⟨hk1.trans hk2, ?_⟩)
      rcases h1 with h1 | h1
      · rcases h2 with h2 | h2
        · exact Or.inl (strLtB_trans h1 h2)
        · exact Or.inl (h2 ▸ h1)
      · rcases h2 with h2 | h2
        · exact Or.inl (h1 ▸ h2)
        · exact Or.inr (h1.trans h2)

instance : IsAntisymm (String × String) pairLeR := by
  constructor
  intro a b hab hba
  rcases pairLeR_iff.mp hab with h1 | ⟨hk1, h1⟩
  · rcases pairLeR_iff.mp hba with h2 | ⟨hk2, _⟩
    · have := strLtB_asymm h1
      simp [this] at h2
    · rw [hk2] at h1
      simp [strLtB_irrefl] at h1
  · rcases pairLeR_iff.mp hba with h2 | ⟨_, h2⟩
    · rw [hk1] at h2
      simp [strLtB_irrefl] at h2
    · rcases h1 with h1 | h1
      · rcases h2 with h2 | h2
        · have := strLtB_asymm h1
          simp [this] at h2
        · rw [h2] at h1
          simp [strLtB_irrefl] at h1
      · rcases h2 with h2 | h2
        · rw [h1] at h2
          simp [strLtB_irrefl] at h2
        · exact Prod.ext hk1 h1

theorem insertionSort_pairLe_eq_of_perm {l1 l2 : List (String × String)} (h : l1.Perm l2) :
    List.insertionSort pairLeR l1 = List.insertionSort pairLeR l2 :=
  List.eq_of_perm_of_sorted
    ((List.perm_insertionSort pairLeR l1).trans (h.trans (List.perm_insertionSort pairLeR l2).symm))
    (List.sorted_insertionSort pairLeR l1) (List.sorted_insertionSort pairLeR l2)

/-- A one-column row whose column is not excluded hashes to
`"column:normalized-value"`. -/
theorem compute_record_hash_singleton (c : String) (v : Value) (ex : List String)
    (h : ¬ c ∈ ex) :
    compute_record_hash [(c, v)] ex = c ++ ":" ++ normalize_value v := by
  simp [compute_record_hash, h, List.insertionSort, List.orderedInsert, String.intercalate,
    String.intercalate.go]

/-- C1 (code bug): reconciling a one-row snapshot against a store whose
table listing has no match does NOT perform the claimed first-time import
(every row INSERT, summary `{inserts:N, deletes:0, unchanged:0,
total_processed:N}`).  `ensure_table_exists` evaluates
`matching_tables[0]` (line 250) before the `if not matching_tables:`
guard (line 254), so the run raises `IndexError`, the rollback handler
leaves the durable state untouched, and the error propagates: the code's
own first-time-import block (lines 253-292) is unreachable. -/
theorem c1_first_import_crashes :
    perform_cdc no_fail [[("name", Value.vStr "alice")]] "owl_connect_export" ⟨[], []⟩ =
      ⟨Except.error CDCError.indexOutOfRange, ⟨[], []⟩, [[("name", Value.vStr "alice")]]⟩ := by
  decide

/-- C2 counterexample: against an existing table holding `M = 1` prior
row, reconciling an empty incoming dataset returns the all-zero summary
(`deletes = 0`, not `M`), appends no ChangeRecord, and leaves the state
unchanged — `perform_cdc` rejects an empty dataframe up front (lines
326-335) before any table access. -/
theorem c2_empty_input_counterexample :
    perform_cdc no_fail [] "owl_connect_export"
        ⟨[("owl_connect_export", [[("name", Value.vStr "a")]])], []⟩ =
      ⟨Except.ok ⟨0, 0, 0, 0, 0⟩,
        ⟨[("owl_connect_export", [[("name", Value.vStr "a")]])], []⟩, []⟩ ∧
    ¬ (perform_cdc no_fail [] "owl_connect_export"
        ⟨[("owl_connect_export", [[("name", Value.vStr "a")]])], []⟩).res =
      Except.ok ⟨0, 0, 1, 0, 0⟩ ∧
    ¬ (perform_cdc no_fail [] "owl_connect_export"
        ⟨[("owl_connect_export", [[("name", Value.vStr "a")]])], []⟩).res =
      Except.ok ⟨0, 0, 1, 0, 1⟩ := by
  decide

/-- C2 (amended): for every existing table holding `M > 0` prior rows,
reconciling an empty incoming dataset returns
`{inserts:0, updates:0, deletes:0, unchanged:0, total_processed:0}` and
emits no ChangeRecord: the empty dataframe is returned as a no-op before
the prior snapshot is ever read, so no DELETE records are produced. -/
theorem c2_empty_input_noop (fail : Step → Bool) (st : RunState) (exact_name tname : String)
    (rows : List Row) (M : Nat) (_hmem : (exact_name, rows) ∈ st.store)
    (_hM : rows.length = M) (_hpos : 0 < M) :
    perform_cdc fail [] tname st = ⟨Except.ok ⟨0, 0, 0, 0, 0⟩, st, []⟩ := rfl

theorem c2_empty_input_noop_witness :
    perform_cdc no_fail [] "owl_connect_export"
        ⟨[("owl_connect_export", [[("name", Value.vStr "a")]])], []⟩ =
      ⟨Except.ok ⟨0, 0, 0, 0, 0⟩,
        ⟨[("owl_connect_export", [[("name", Value.vStr "a")]])], []⟩, []⟩ :=
  c2_empty_input_noop no_fail ⟨[("owl_connect_export", [[("name", Value.vStr "a")]])], []⟩
    "owl_connect_export" "owl_connect_export" [[("name", Value.vStr "a")]] 1
    (by decide) (by decide) (by decide)

/-- C3 counterexample: with the stored listing `["a_x", "a-x"]` and query
`"a_x"`, both stored names match, and resolution returns `"a_x"` — the
first name in backend listing order — although the lexicographically
least match is `"a-x"` (code point 45 of `-` sorts before 95 of `_`);
reversing the listing changes the answer. -/
theorem c3_resolution_counterexample :
    ensure_table_exists ["a_x", "a-x"] "a_x" = Except.ok "a_x" ∧
    ensure_table_exists ["a-x", "a_x"] "a_x" = Except.ok "a-x" ∧
    table_name_matches "a-x" "a_x" = true ∧
    table_name_matches "a_x" "a_x" = true ∧
    strLtB "a-x".data "a_x".data = true ∧
    ¬ ensure_table_exists ["a_x", "a-x"] "a_x" = Except.ok "a-x" := by
  decide

/-- C3 (amended): table resolution selects the first matching stored name
in the order in which the backend lists tables (`matching_tables[0]`,
line 250): whenever every listing entry before `t` fails to match and `t`
matches, `t` is selected, so the result depends on backend order rather
than on a lexicographic tie-break. -/
theorem c3_first_match_resolution (pre post : List String) (q t : String)
    (hpre : ∀ u ∈ pre, table_name_matches u q = false) (ht : table_name_matches t q = true) :
    ensure_table_exists (pre ++ t :: post) q = Except.ok t := by
  have h0 : pre.filter (fun u => table_name_matches u q) = [] :=
    List.filter_eq_nil_iff.mpr (by intro u hu; simp [hpre u hu])
  simp only [ensure_table_exists, List.filter_append, h0, List.nil_append]
  rw [@List.filter_cons_of_pos String (fun u => table_name_matches u q) t post ht]

theorem c3_first_match_resolution_witness :
    ensure_table_exists (["zz"] ++ "a-x" :: ["a_x"]) "A_X" = Except.ok "a-x" :=
  c3_first_match_resolution ["zz"] ["a_x"] "A_X" "a-x" (by decide) (by decide)

/-- C6 counterexample: the float `3.5` (decimal text `"3.5"`, integer
truncation `3`) normalizes to `"3.5"`, not to the claimed `"3"`: the code
only integer-truncates when `len(str(v)) > 10` (line 199).  The digest of
a row holding it therefore serializes the untruncated text. -/
theorem c6_numeric_counterexample :
    normalize_value (Value.vFloat "3.5" 3) = "3.5" ∧
    ¬ normalize_value (Value.vFloat "3.5" 3) = "3" ∧
    compute_record_hash [("amount", Value.vFloat "3.5" 3)] default_exclude_columns =
      "amount:3.5" := by
  decide

/-- C6 (amended): for a non-excluded column, a numeric field value `v`
contributes `str(v)` unchanged to the digest when `len(str(v)) ≤ 10`, and
the first 10 characters of `str(int(v))` only when `len(str(v)) > 10`
(for an `int`, `str(int(v)) = str(v)`). -/
theorem c6_numeric_normalization (c s : String) (ip i : Int)
    (hc : ¬ c ∈ default_exclude_columns) :
    compute_record_hash [(c, Value.vFloat s ip)] default_exclude_columns =
        c ++ ":" ++ (if 10 < py_len s then py_take (toString ip) 10 else s) ∧
      compute_record_hash [(c, Value.vInt i)] default_exclude_columns =
        c ++ ":" ++ (if 10 < py_len (toString i) then py_take (toString i) 10
          else toString i) :=
  ⟨compute_record_hash_singleton c _ _ hc, compute_record_hash_singleton c _ _ hc⟩

theorem c6_numeric_normalization_witness :
    compute_record_hash [("amount", Value.vFloat "12345678901.5" 12345678901)]
          default_exclude_columns =
        "amount" ++ ":" ++ (if 10 < py_len "12345678901.5"
          then py_take (toString (12345678901 : Int)) 10 else "12345678901.5") ∧
      compute_record_hash [("amount", Value.vInt 42)] default_exclude_columns =
        "amount" ++ ":" ++ (if 10 < py_len (toString (42 : Int))
          then py_take (toString (42 : Int)) 10 else toString (42 : Int)) :=
  c6_numeric_normalization "amount" "12345678901.5" 12345678901 42 (by decide)

/-- C9: the stored/queried table-name match of `ensure_table_exists`
succeeds exactly when the two names are equal after lower-casing and
replacing hyphens with underscores (the first disjunct of line 245 is
subsumed by the second); in particular a table stored as
`"owl-connect-export"` is matched when queried as `"owl_connect_export"`
or `"OWL-CONNECT-EXPORT"`. -/
theorem c9_table_matching :
    (∀ s q : String, table_name_matches s q = true ↔
        canonical_table_name s = canonical_table_name q) ∧
      table_name_matches "owl-connect-export" "owl_connect_export" = true ∧
      table_name_matches "owl-connect-export" "OWL-CONNECT-EXPORT" = true := by
  refine ⟨?_, by decide, by decide⟩
  intro s q
  simp only [table_name_matches, canonical_table_name, Bool.or_eq_true, beq_iff_eq]
  constructor
  · intro h
    rcases h with h | h
    · exact congrArg py_replace_dash h
    · exact h
  · intro h
    exact Or.inr h

/-- Any error escaping `perform_cdc` leaves the durable state (snapshot
store and committed change log) exactly as it was: every error branch
passes through the rollback handler. -/
theorem perform_cdc_error_state (fail : Step → Bool) (df : List Row) (tname : String)
    (st : RunState) (e : CDCError) (h : (perform_cdc fail df tname st).res = Except.error e) :
    (perform_cdc fail df tname st).state = st := by
  by_cases h1 : df.isEmpty
  · simp [perform_cdc, h1] at h
  · cases h2 : ensure_table_exists (st.store.map Prod.fst) tname with
    | error e0 => simp [perform_cdc, h1, h2]
    | ok exact_name =>
      by_cases h3 : fail Step.readSnapshot = true
      · simp [perform_cdc, h1, h2, h3]
      · cases h4 : lookup_table st.store exact_name with
        | none => simp [perform_cdc, h1, h2, h3, h4]
        | some existing_rows =>
          by_cases h5 : fail Step.hashRows = true
          · simp [perform_cdc, h1, h2, h3, h4, h5]
          · by_cases h6 : fail Step.diffRows = true
            · simp [perform_cdc, h1, h2, h3, h4, h5, h6]
            · by_cases h7 : fail Step.commitLog = true
              · simp [perform_cdc, h1, h2, h3, h4, h5, h6, h7]
              · simp [perform_cdc, h1, h2, h3, h4, h5, h6, h7] at h

/-- C5: if a reconciliation run raises at any point — table resolution,
reading the prior snapshot, hashing, diffing, or the change-log commit —
then no ChangeRecord of the run is committed and the snapshot store is
untouched (`session.rollback` discards the pending records, lines
401-404), the error is the run's returned outcome, and the importer,
which re-raises (lines 451-453), never reaches its snapshot replace, so
the persisted snapshot is also unchanged at the pipeline level. -/
theorem c5_error_rollback (fail : Step → Bool) (df : List Row) (tname : String)
    (st : RunState) (e e2 : CDCError)
    (h : (perform_cdc fail df tname st).res = Except.error e)
    (h2 : (import_excel_to_mysql fail df st).1 = Except.error e2) :
    (perform_cdc fail df tname st).state = st ∧ (import_excel_to_mysql fail df st).2 = st := by
  refine ⟨perform_cdc_error_state fail df tname st e h, ?_⟩
  unfold import_excel_to_mysql at h2 ⊢
  cases hout : (perform_cdc fail df "owl_connect_export" st).res with
  | error e3 =>
    simp only [hout]
    exact perform_cdc_error_state fail df "owl_connect_export" st e3 hout
  | ok s => simp [hout] at h2

theorem c5_error_rollback_witness :
    (perform_cdc (fun s => s == Step.commitLog) [[("name", Value.vStr "a")]] "t"
        ⟨[("t", [])], []⟩).state = ⟨[("t", [])], []⟩ ∧
      (import_excel_to_mysql (fun s => s == Step.commitLog) [[("name", Value.vStr "a")]]
        ⟨[("t", [])], []⟩).2 = ⟨[("t", [])], []⟩ :=
  c5_error_rollback (fun s => s == Step.commitLog) [[("name", Value.vStr "a")]] "t"
    ⟨[("t", [])], []⟩ (CDCError.stepFailure Step.commitLog) CDCError.indexOutOfRange
    (by decide) (by decide)

/-- C7: permuting the field order of a row (a mapping, so its column
names are distinct) does not change its digest: the entries are sorted by
`sorted(filtered_row.items())` before serialization. -/
theorem c7_column_order_invariance (r1 r2 : Row) (ex : List String)
    (hperm : r1.Perm r2) (_hnodup : (r1.map Prod.fst).Nodup) :
    compute_record_hash r1 ex = compute_record_hash r2 ex := by
  have h := insertionSort_pairLe_eq_of_perm
    (List.Perm.map (fun p => (p.1, normalize_value p.2))
      (List.Perm.filter (fun p => !(ex.contains p.1)) hperm))
  simp only [compute_record_hash]
  rw [h]

theorem c7_column_order_invariance_witness :
    compute_record_hash [("name", Value.vStr "Alice"), ("dept", Value.vStr "Eng")]
        default_exclude_columns =
      compute_record_hash [("dept", Value.vStr "Eng"), ("name", Value.vStr "Alice")]
        default_exclude_columns :=
  c7_column_order_invariance _ _ _ (by decide) (by decide)

/-- Rewriting the value stored under an excluded column is invisible to
the exclusion filter of `compute_record_hash`. -/
theorem filter_exclude_map_value (r : Row) (ex : List String) (c : String) (w : Value)
    (hc : c ∈ ex) :
    (r.map (fun p => if p.1 == c then (p.1, w) else p)).filter
        (fun p => !(ex.contains p.1)) =
      r.filter (fun p => !(ex.contains p.1)) := by
  induction r with
  | nil => rfl
  | cons p ps ih =>
    simp only [List.map_cons]
    by_cases hp : p.1 = c
    · have hbe : (p.1 == c) = true := by simp [hp]
      have hcont : ex.contains p.1 = true := by simp [hp, hc]
      rw [if_pos hbe, List.filter_cons_of_neg (by simpa using hcont),
        List.filter_cons_of_neg (by simpa using hcont)]
      exact ih
    · have hbe : ¬ ((p.1 == c) = true) := by simp [hp]
      rw [if_neg hbe]
      by_cases hcont : ex.contains p.1 = true
      · rw [List.filter_cons_of_neg (by simpa using hcont), List.filter_cons_of_neg (by simpa using hcont)]
        exact ih
      · rw [List.filter_cons_of_pos (by simpa using hcont),
          List.filter_cons_of_pos (by simpa using hcont), ih]

/-- C8: for every column `c` of the default exclusion list
(`created_at`, `updated_at`, `timestamp`, `record_hash`,
`registrant_date`), changing only the value stored under `c`, adding `c`,
or removing `c` leaves the row's digest unchanged: the column is dropped
before normalization and serialization. -/
theorem c8_exclusion_invariance (r : Row) (c : String) (v w : Value)
    (hc : c ∈ default_exclude_columns) :
    compute_record_hash (r.map (fun p => if p.1 == c then (p.1, w) else p))
          default_exclude_columns = compute_record_hash r default_exclude_columns ∧
      compute_record_hash ((c, v) :: r) default_exclude_columns =
        compute_record_hash r default_exclude_columns ∧
      compute_record_hash (drop_column r c) default_exclude_columns =
        compute_record_hash r default_exclude_columns := by
  refine ⟨?_, ?_, ?_⟩
  · simp only [compute_record_hash]
    rw [filter_exclude_map_value r _ c w hc]
  · simp only [compute_record_hash]
    have hcons : ((c, v) :: r).filter (fun p => !(default_exclude_columns.contains p.1)) =
        r.filter (fun p => !(default_exclude_columns.contains p.1)) :=
      List.filter_cons_of_neg (by simp [hc])
    rw [hcons]
  · simp only [compute_record_hash, drop_column]
    rw [List.filter_filter]
    have hpt : ∀ a ∈ r, ((!(default_exclude_columns.contains a.1)) && (!(a.1 == c))) =
        (!(default_exclude_columns.contains a.1)) := by
      intro a _
      by_cases h : a.1 = c
      · simp [h, hc]
      · simp [h]
    rw [List.filter_congr hpt]

theorem c8_exclusion_invariance_witness :
    compute_record_hash ([("name", Value.vStr "x"), ("created_at", Value.vStr "t1")].map
          (fun p => if p.1 == "created_at" then (p.1, Value.vStr "t2") else p))
          default_exclude_columns =
        compute_record_hash [("name", Value.vStr "x"), ("created_at", Value.vStr "t1")]
          default_exclude_columns ∧
      compute_record_hash (("created_at", Value.vStr "t9") ::
          [("name", Value.vStr "x"), ("created_at", Value.vStr "t1")])
          default_exclude_columns =
        compute_record_hash [("name", Value.vStr "x"), ("created_at", Value.vStr "t1")]
          default_exclude_columns ∧
      compute_record_hash
          (drop_column [("name", Value.vStr "x"), ("created_at", Value.vStr "t1")] "created_at")
          default_exclude_columns =
        compute_record_hash [("name", Value.vStr "x"), ("created_at", Value.vStr "t1")]
          default_exclude_columns :=
  c8_exclusion_invariance [("name", Value.vStr "x"), ("created_at", Value.vStr "t1")]
    "created_at" (Value.vStr "t9") (Value.vStr "t2") (by decide)

/-- A member of a list is reported by `List.contains`. -/
theorem contains_of_mem {a : String} {l : List String} (h : a ∈ l) : l.contains a = true := by
  simpa using h

/-- A non-member of a list is rejected by `List.contains`. -/
theorem contains_eq_false_of_not_mem {a : String} {l : List String} (h : ¬ a ∈ l) :
    l.contains a = false := by
  simpa using h

/-- The diff branch of `perform_cdc` in closed form: with a non-empty
dataframe, a resolvable table name and a readable prior snapshot, no step
failing, the run returns the digest-set diff summary, appends the INSERT
records then the DELETE records to the change log, leaves the store
untouched, and hands back the dataframe with its `record_hash` column
assigned. -/
theorem perform_cdc_diff (df : List Row) (tname : String) (st : RunState)
    (exact_name : String) (rest : List String) (existing : List Row)
    (hne : df.isEmpty = false)
    (hres : (st.store.map Prod.fst).filter (fun u => table_name_matches u tname) =
      exact_name :: rest)
    (hlook : lookup_table st.store exact_name = some existing) :
    perform_cdc no_fail df tname st =
      ⟨Except.ok
          ⟨(df.filter (fun x => !((existing.map row_hash).contains (row_hash x)))).length, 0,
            (existing.filter (fun x => !((df.map row_hash).contains (row_hash x)))).length,
            (df.filter (fun x => (existing.map row_hash).contains (row_hash x))).length,
            df.length⟩,
        ⟨st.store, st.changeLog ++
          ((df.filter (fun x => !((existing.map row_hash).contains (row_hash x)))).map (fun r =>
            ⟨"INSERT", exact_name, row_hash r, none,
              some (drop_column (set_column r "record_hash" (Value.vStr (row_hash r)))
                "record_hash")⟩) ++
          (existing.filter (fun x => !((df.map row_hash).contains (row_hash x)))).map (fun r =>
            ⟨"DELETE", exact_name, row_hash r,
              some (drop_column (set_column r "record_hash" (Value.vStr (row_hash r)))
                "record_hash"), none⟩))⟩,
        df.map (fun r => set_column r "record_hash" (Value.vStr (row_hash r)))⟩ := by
  have hres' : ensure_table_exists (st.store.map Prod.fst) tname = Except.ok exact_name := by
    simp [ensure_table_exists, hres]
  simp [perform_cdc, hne, hres', hlook, no_fail]

/-- C4 (amended): given a prior snapshot whose row digests are pairwise
distinct, and an incoming snapshot equal to it except that one row is
replaced by an edited row whose digest is not among the prior digests
(e.g. a single non-excluded field edited to a fresh normalized value),
reconciliation returns `{inserts:1, deletes:1, unchanged:N-1,
total_processed:N}` and appends exactly one INSERT and one DELETE
ChangeRecord — the edit surfaces as a DELETE+INSERT pair and no record
with change_type UPDATE is ever emitted.  Without the digest side
conditions the counts differ (see the counterexample). -/
theorem c4_edit_pair_amended (pre post : List Row) (r r2 : Row) (st : RunState)
    (tname exact_name : String) (rest : List String)
    (hres : (st.store.map Prod.fst).filter (fun u => table_name_matches u tname) =
      exact_name :: rest)
    (hlook : lookup_table st.store exact_name = some (pre ++ r :: post))
    (hnodup : ((pre ++ r :: post).map row_hash).Nodup)
    (hfresh : ¬ row_hash r2 ∈ (pre ++ r :: post).map row_hash) :
    (perform_cdc no_fail (pre ++ r2 :: post) tname st).res =
        Except.ok ⟨1, 0, 1, pre.length + post.length, pre.length + post.length + 1⟩ ∧
      (perform_cdc no_fail (pre ++ r2 :: post) tname st).state.changeLog =
        st.changeLog ++
          [⟨"INSERT", exact_name, row_hash r2, none,
            some (drop_column (set_column r2 "record_hash" (Value.vStr (row_hash r2)))
              "record_hash")⟩,
           ⟨"DELETE", exact_name, row_hash r,
            some (drop_column (set_column r "record_hash" (Value.vStr (row_hash r)))
              "record_hash"), none⟩] := by
  have hne : (pre ++ r2 :: post).isEmpty = false := by
    simp [List.isEmpty_iff]
  -- digests of the prior snapshot, split at the edited row
  have hEsplit : (pre ++ r :: post).map row_hash =
      pre.map row_hash ++ row_hash r :: post.map row_hash := by
    simp
  have hndsplit : (pre.map row_hash ++ row_hash r :: post.map row_hash).Nodup := by
    rw [← hEsplit]; exact hnodup
  obtain ⟨-, hnd2, hdisj⟩ := List.nodup_append.mp hndsplit
  have hr_not_pre : ¬ row_hash r ∈ pre.map row_hash :=
    fun hmem => hdisj hmem (List.mem_cons_self _ _)
  have hr_not_post : ¬ row_hash r ∈ post.map row_hash := (List.nodup_cons.mp hnd2).1
  have hrE : row_hash r ∈ (pre ++ r :: post).map row_hash :=
    List.mem_map_of_mem row_hash (List.mem_append_right pre (List.mem_cons_self r post))
  -- the edited row's digest differs from the old row's digest
  have hrr2 : ¬ row_hash r = row_hash r2 := by
    intro he
    exact hfresh (he ▸ hrE)
  -- the new record list is exactly [r2]
  have hnew : (pre ++ r2 :: post).filter
      (fun x => !(((pre ++ r :: post).map row_hash).contains (row_hash x))) = [r2] := by
    rw [List.filter_append]
    have h1 : pre.filter
        (fun x => !(((pre ++ r :: post).map row_hash).contains (row_hash x))) = [] :=
      List.filter_eq_nil_iff.mpr (by
        intro x hx
        rw [contains_of_mem (List.mem_map_of_mem row_hash (List.mem_append_left _ hx))]
        simp)
    have h2 : post.filter
        (fun x => !(((pre ++ r :: post).map row_hash).contains (row_hash x))) = [] :=
      List.filter_eq_nil_iff.mpr (by
        intro x hx
        rw [contains_of_mem (List.mem_map_of_mem row_hash
          (List.mem_append_right _ (List.mem_cons_of_mem r hx)))]
        simp)
    rw [h1, List.filter_cons_of_pos (by rw [contains_eq_false_of_not_mem hfresh]; simp), h2]
    rfl
  -- the deleted record list is exactly [r]
  have hr_not_new : ¬ row_hash r ∈ (pre ++ r2 :: post).map row_hash := by
    intro hmem
    rw [List.map_append, List.map_cons] at hmem
    rcases List.mem_append.mp hmem with hl | hr2m
    · exact hr_not_pre hl
    · rcases List.mem_cons.mp hr2m with heq | hpost
      · exact hrr2 heq
      · exact hr_not_post hpost
  have hdel : (pre ++ r :: post).filter
      (fun x => !(((pre ++ r2 :: post).map row_hash).contains (row_hash x))) = [r] := by
    rw [List.filter_append]
    have h1 : pre.filter
        (fun x => !(((pre ++ r2 :: post).map row_hash).contains (row_hash x))) = [] :=
      List.filter_eq_nil_iff.mpr (by
        intro x hx
        rw [contains_of_mem (List.mem_map_of_mem row_hash (List.mem_append_left _ hx))]
        simp)
    have h2 : post.filter
        (fun x => !(((pre ++ r2 :: post).map row_hash).contains (row_hash x))) = [] :=
      List.filter_eq_nil_iff.mpr (by
        intro x hx
        rw [contains_of_mem (List.mem_map_of_mem row_hash
          (List.mem_append_right _ (List.mem_cons_of_mem r2 hx)))]
        simp)
    rw [h1, List.filter_cons_of_pos (by rw [contains_eq_false_of_not_mem hr_not_new]; simp), h2]
    rfl
  -- the unchanged rows are exactly pre ++ post
  have hunch : (pre ++ r2 :: post).filter
      (fun x => ((pre ++ r :: post).map row_hash).contains (row_hash x)) = pre ++ post := by
    rw [List.filter_append]
    have h1 : pre.filter
        (fun x => ((pre ++ r :: post).map row_hash).contains (row_hash x)) = pre :=
      List.filter_eq_self.mpr (by
        intro x hx
        exact contains_of_mem (List.mem_map_of_mem row_hash (List.mem_append_left _ hx)))
    have h2 : post.filter
        (fun x => ((pre ++ r :: post).map row_hash).contains (row_hash x)) = post :=
      List.filter_eq_self.mpr (by
        intro x hx
        exact contains_of_mem (List.mem_map_of_mem row_hash
          (List.mem_append_right _ (List.mem_cons_of_mem r hx))))
    rw [h1, List.filter_cons_of_neg (by rw [contains_eq_false_of_not_mem hfresh]; simp), h2]
  rw [perform_cdc_diff (pre ++ r2 :: post) tname st exact_name rest (pre ++ r :: post)
    hne hres hlook]
  refine ⟨?_, ?_⟩
  · rw [hnew, hdel, hunch]
    simp [List.length_append]
    omega
  · rw [hnew, hdel]
    simp

/-- C4 counterexample: prior snapshot `[{name:"a"}, {name:"b"}]`
(`N = 2`), incoming snapshot equal to it except that row 0's `name` field
is edited to the new normalized value `"b"`.  The claim demands
`{inserts:1, deletes:1, unchanged:1}`, but the edited row's digest now
collides with the other prior row's digest, so the code returns
`{inserts:0, deletes:1, unchanged:2}`. -/
theorem c4_edit_pair_counterexample :
    (perform_cdc no_fail [[("name", Value.vStr "b")], [("name", Value.vStr "b")]] "t"
        ⟨[("t", [[("name", Value.vStr "a")], [("name", Value.vStr "b")]])], []⟩).res =
        Except.ok ⟨0, 0, 1, 2, 2⟩ ∧
      ¬ (perform_cdc no_fail [[("name", Value.vStr "b")], [("name", Value.vStr "b")]] "t"
        ⟨[("t", [[("name", Value.vStr "a")], [("name", Value.vStr "b")]])], []⟩).res =
        Except.ok ⟨1, 0, 1, 1, 2⟩ := by
  decide

theorem c4_edit_pair_amended_witness :
    (perform_cdc no_fail [[("name", Value.vStr "b")]] "t"
        ⟨[("t", [[("name", Value.vStr "a")]])], []⟩).res = Except.ok ⟨1, 0, 1, 0, 1⟩ ∧
      (perform_cdc no_fail [[("name", Value.vStr "b")]] "t"
        ⟨[("t", [[("name", Value.vStr "a")]])], []⟩).state.changeLog =
        [⟨"INSERT", "t", row_hash [("name", Value.vStr "b")], none,
          some (drop_column (set_column [("name", Value.vStr "b")] "record_hash"
            (Value.vStr (row_hash [("name", Value.vStr "b")]))) "record_hash")⟩,
         ⟨"DELETE", "t", row_hash [("name", Value.vStr "a")],
          some (drop_column (set_column [("name", Value.vStr "a")] "record_hash"
            (Value.vStr (row_hash [("name", Value.vStr "a")]))) "record_hash"), none⟩] :=
  c4_edit_pair_amended [] [] [("name", Value.vStr "a")] [("name", Value.vStr "b")]
    ⟨[("t", [[("name", Value.vStr "a")]])], []⟩ "t" "t" []
    (by decide) (by decide) (by decide) (by decide)

/-- Reading a table back right after `replace_table` yields exactly the
replacement rows. -/
theorem lookup_replace (s : List (String × List Row)) (n : String) (rows : List Row) :
    lookup_table (replace_table s n rows) n = some rows := by
  induction s with
  | nil => simp [replace_table, lookup_table]
  | cons p rest ih =>
    obtain ⟨m, old⟩ := p
    by_cases h : (m == n) = true
    · simp [replace_table, lookup_table, h]
    · simp [replace_table, lookup_table, h, ih]

/-- Assigning a column that a row does not yet carry appends it at the
end of the row. -/
theorem set_column_of_absent (r : Row) (c : String) (v : Value)
    (h : ∀ p ∈ r, ¬ p.1 = c) : set_column r c v = r ++ [(c, v)] := by
  unfold set_column
  have hany : r.any (fun p => p.1 == c) = false :=
    List.any_eq_false.mpr (by intro p hp; simp [h p hp])
  simp [hany]

/-- C10: for every non-empty incoming dataset whose rows carry no
`record_hash` column, processed against an existing table, `perform_cdc`
mutates the caller's dataframe in place by appending a `record_hash`
column holding each row's digest (line 350), and the snapshot the
importer then persists wholesale (line 447) is exactly that mutated
dataframe — original data columns plus the extra `record_hash` column. -/
theorem c10_record_hash_column (df : List Row) (st : RunState) (exact_name : String)
    (rest : List String) (existing : List Row)
    (hne : df.isEmpty = false)
    (hres : (st.store.map Prod.fst).filter
      (fun u => table_name_matches u "owl_connect_export") = exact_name :: rest)
    (hlook : lookup_table st.store exact_name = some existing)
    (hnohash : ∀ r ∈ df, ∀ p ∈ r, ¬ p.1 = "record_hash") :
    (perform_cdc no_fail df "owl_connect_export" st).df =
        df.map (fun r => r ++ [("record_hash", Value.vStr (row_hash r))]) ∧
      (import_excel_to_mysql no_fail df st).1 =
        Except.ok (df.map (fun r => r ++ [("record_hash", Value.vStr (row_hash r))])) ∧
      lookup_table (import_excel_to_mysql no_fail df st).2.store "owl_connect_export" =
        some (df.map (fun r => r ++ [("record_hash", Value.vStr (row_hash r))])) := by
  have hout := perform_cdc_diff df "owl_connect_export" st exact_name rest existing
    hne hres hlook
  have hmut : df.map (fun r => set_column r "record_hash" (Value.vStr (row_hash r))) =
      df.map (fun r => r ++ [("record_hash", Value.vStr (row_hash r))]) :=
    List.map_congr_left (fun r hr => set_column_of_absent r _ _ (hnohash r hr))
  refine ⟨?_, ?_, ?_⟩
  · rw [hout]
    exact hmut
  · unfold import_excel_to_mysql
    rw [hout]
    simp [hmut]
  · unfold import_excel_to_mysql
    rw [hout]
    simp [hmut, lookup_replace]

theorem c10_record_hash_column_witness :
    (perform_cdc no_fail [[("dept", Value.vStr "x")]] "owl_connect_export"
        ⟨[("owl_connect_export", [[("dept", Value.vStr "y")]])], []⟩).df =
        [[("dept", Value.vStr "x"),
          ("record_hash", Value.vStr (row_hash [("dept", Value.vStr "x")]))]] ∧
      (import_excel_to_mysql no_fail [[("dept", Value.vStr "x")]]
        ⟨[("owl_connect_export", [[("dept", Value.vStr "y")]])], []⟩).1 =
        Except.ok [[("dept", Value.vStr "x"),
          ("record_hash", Value.vStr (row_hash [("dept", Value.vStr "x")]))]] ∧
      lookup_table (import_excel_to_mysql no_fail [[("dept", Value.vStr "x")]]
        ⟨[("owl_connect_export", [[("dept", Value.vStr "y")]])], []⟩).2.store
          "owl_connect_export" =
        some [[("dept", Value.vStr "x"),
          ("record_hash", Value.vStr (row_hash [("dept", Value.vStr "x")]))]] :=
  c10_record_hash_column [[("dept", Value.vStr "x")]]
    ⟨[("owl_connect_export", [[("dept", Value.vStr "y")]])], []⟩ "owl_connect_export" []
    [[("dept", Value.vStr "y")]] (by decide) (by decide) (by decide) (by decide)
